import Mathlib

/-!
Shallow embedding of `src/lib/cap.c` from intel-cmt-cat (libpqos):
capability discovery, the CDP cross-topology consistency validator,
the capability registry with its mutation hooks, and the
initialize/shutdown lifecycle.

External collaborators (the CPUID/MSR probe interface from machine.c,
the topology provider from cpuinfo.c, logging, and the OS-mediated
resctrl path) are modelled as parameters: a `HW` record carries the
CPU-identification function, the register-read function and the
outcomes of the external init/fini steps, and `Cpuinfo` carries the
topology snapshot.  Return codes from pqos.h are modelled symbolically.
-/

/-- Return codes of the library (PQOS_RETVAL_* from pqos.h):
`OK` success, `ERROR` generic/fatal error, `PARAM` bad parameter,
`RESOURCE` capability not supported, `INIT` lifecycle misuse
(library initialized or not initialized), `BUSY` resource busy. -/
inductive Retval
  | OK
  | ERROR
  | PARAM
  | RESOURCE
  | INIT
  | BUSY
  deriving DecidableEq, Repr

/-- Output registers of a CPUID query (struct cpuid_out). -/
structure CpuidOut where
  eax : Nat
  ebx : Nat
  ecx : Nat
  edx : Nat
  deriving DecidableEq, Repr

/-- Per-cache-level geometry (struct pqos_cacheinfo). -/
structure Cacheinfo where
  detected : Bool
  num_ways : Nat
  total_size : Nat
  deriving DecidableEq, Repr

/-- CPU topology snapshot (struct pqos_cpuinfo plus the cpuinfo.c
helpers used by cap.c).  `oneCoreOfSocket` models
`pqos_cpu_get_one_core`, `oneCoreOfL2id` models
`pqos_cpu_get_one_by_l2id`; both may fail with a library return code. -/
structure Cpuinfo where
  cores : List Nat
  sockets : List Nat
  l2ids : List Nat
  oneCoreOfSocket : Nat → Except Retval Nat
  oneCoreOfL2id : Nat → Except Retval Nat
  l3 : Cacheinfo
  l2 : Cacheinfo

/-- Selected hardware-access interface (enum pqos_interface). -/
inductive Interface
  | msr
  | os
  | osResctrlMon
  deriving DecidableEq, Repr

/-- Value of the RDT_IFACE environment override:
absent, "OS", "MSR", or anything else. -/
inductive EnvIface
  | envOs
  | envMsr
  | envOther
  deriving DecidableEq, Repr

/-- Environment of one run: the CPUID responder, the MSR-read responder
(`none` models a failed `msr_read`), the RDT_IFACE override, and the
outcomes of the external steps driven by `pqos_init` / `pqos_fini`
(lock file open, mutex init, log init, cpuinfo discovery, machine init,
utils/api init, allocation and monitoring sub-module init, and the
corresponding fini results). -/
structure HW where
  cpuid : Nat → Nat → CpuidOut
  msr : Nat → Nat → Option Nat
  env : Option EnvIface
  openLock : Option Nat
  mutexInitOk : Bool
  logInitOk : Bool
  cpuinfo : Option Cpuinfo
  machineInitOk : Bool
  utilsInitOk : Bool
  apiInitOk : Bool
  allocInitRet : Retval
  monInitRet : Retval
  cpuinfoFiniOk : Bool
  machineFiniRet : Retval
  logFiniRet : Retval
  closeOk : Bool
  mutexDestroyOk : Bool

/-- Reads cache geometry (get_cache_info): fails with RESOURCE when the
cache level was not detected, otherwise yields (num_ways, total_size). -/
def get_cache_info (ci : Cacheinfo) : Except Retval (Nat × Nat) :=
  if ci.detected then .ok (ci.num_ways, ci.total_size)
  else .error .RESOURCE

/-- Monitoring event kinds (enum pqos_mon_event / perf events). -/
inductive MonEventType
  | l3_occup
  | tmem_bw
  | lmem_bw
  | rmem_bw
  | ipc_ev
  | llc_miss
  deriving DecidableEq, Repr

/-- One monitoring event entry (struct pqos_monitor). -/
structure Monitor where
  type : MonEventType
  max_rmid : Nat
  scale_factor : Nat
  deriving DecidableEq, Repr

/-- Monitoring capability (struct pqos_cap_mon).  `events` is the
populated event table; `warned` records that `add_monitoring_event`
hit its capacity guard (the LOG_WARN path in the C code). -/
structure CapMon where
  max_rmid : Nat
  l3_size : Nat
  events : List Monitor
  warned : Bool
  deriving DecidableEq, Repr

/-- Appends an event to the monitoring table (add_monitoring_event).
When the table already holds `max_num_events` entries the attempt is
rejected and surfaced (warned flag, LOG_WARN in C) instead of writing
out of bounds. -/
def add_monitoring_event (mon : CapMon) (event_type : MonEventType)
    (max_rmid : Nat) (scale_factor : Nat) (max_num_events : Nat) : CapMon :=
  if max_num_events ≤ mon.events.length then
    { mon with warned := true }
  else
    { mon with events := mon.events ++ [⟨event_type, max_rmid, scale_factor⟩] }

/-- Number of architectural RMT events advertised by CPUID.0xf.1
(occupancy, total bandwidth, local bandwidth, plus the synthesized
remote-bandwidth event when both bandwidth bits are present).  This is
the running value of `num_events` at the zero check in
discover_monitoring. -/
def rmt_event_count (f1 : CpuidOut) : Nat :=
  (if f1.edx &&& 1 ≠ 0 then 1 else 0) +
  (if f1.edx &&& 2 ≠ 0 then 1 else 0) +
  (if f1.edx &&& 4 ≠ 0 then 1 else 0) +
  (if f1.edx &&& 2 ≠ 0 ∧ f1.edx &&& 4 ≠ 0 then 1 else 0)

/-- Final event count used to size the event table in
discover_monitoring: the RMT events plus the two conditional
perf-derived events (IPC, LLC misses) from CPUID.0xa. -/
def mon_event_count (f1 xa : CpuidOut) : Nat :=
  rmt_event_count f1 +
  (if xa.ebx &&& 3 = 0 ∧ 1 < xa.edx &&& 31 then 1 else 0) +
  (if 1 < (xa.eax >>> 8) &&& 0xff then 1 else 0)

/-- Conditional six-slot fill of the monitoring event table: the six
conditional add_monitoring_event calls of discover_monitoring, in
source order, against a fixed capacity. -/
def mon_fill6 (P1 P2 P3 P4 P5 P6 : Prop)
    [Decidable P1] [Decidable P2] [Decidable P3] [Decidable P4]
    [Decidable P5] [Decidable P6]
    (cap mr0 sz a b : Nat) : CapMon :=
  let mon : CapMon := ⟨mr0, sz, [], false⟩
  let mon := if P1 then add_monitoring_event mon .l3_occup a b cap else mon
  let mon := if P2 then add_monitoring_event mon .tmem_bw a b cap else mon
  let mon := if P3 then add_monitoring_event mon .lmem_bw a b cap else mon
  let mon := if P4 then add_monitoring_event mon .rmem_bw a b cap else mon
  let mon := if P5 then add_monitoring_event mon .ipc_ev 0 0 cap else mon
  let mon := if P6 then add_monitoring_event mon .llc_miss 0 0 cap else mon
  mon

/-- Discovers monitoring capabilities (discover_monitoring): gated by
CPUID.0x7.0 ebx bit 12 and CPUID.0xf.0 edx bit 1, requires L3 geometry,
counts events, then populates a table sized exactly to that count. -/
def discover_monitoring (hw : HW) (cpu : Cpuinfo) : Except Retval CapMon :=
  let r7 := hw.cpuid 0x7 0x0
  if r7.ebx &&& (1 <<< 12) = 0 then .error .RESOURCE
  else
    let rf := hw.cpuid 0xf 0x0
    if rf.edx &&& 2 = 0 then .error .RESOURCE
    else
      let max_rmid := rf.ebx + 1
      match get_cache_info cpu.l3 with
      | .error _ => .error .ERROR
      | .ok (_, l3_size) =>
        let f1 := hw.cpuid 0xf 1
        if rmt_event_count f1 = 0 then .error .ERROR
        else
          let xa := hw.cpuid 0xa 0x0
          let num_events := mon_event_count f1 xa
          .ok (mon_fill6 (f1.edx &&& 1 ≠ 0) (f1.edx &&& 2 ≠ 0)
            (f1.edx &&& 4 ≠ 0) (f1.edx &&& 2 ≠ 0 ∧ f1.edx &&& 4 ≠ 0)
            (xa.ebx &&& 3 = 0 ∧ 1 < xa.edx &&& 31)
            (1 < (xa.eax >>> 8) &&& 0xff)
            num_events max_rmid l3_size (f1.ecx + 1) f1.ebx)

/-- Tally loop shared by l3cdp_is_enabled / l2cdp_is_enabled: for each
partition pick one representative core, read the split-mode config
register, and count enabled vs disabled partitions.  A representative
lookup failure propagates its code; a register-read failure is ERROR. -/
def cdp_tally (hw : HW) (reg : Nat) (getCore : Nat → Except Retval Nat) :
    List Nat → Nat → Nat → Except Retval (Nat × Nat)
  | [], en, dis => .ok (en, dis)
  | p :: rest, en, dis =>
    match getCore p with
    | .error rv => .error rv
    | .ok core =>
      match hw.msr core reg with
      | none => .error .ERROR
      | some v =>
        if v &&& 1 ≠ 0 then cdp_tally hw reg getCore rest (en + 1) dis
        else cdp_tally hw reg getCore rest en (dis + 1)

/-- Checks L3 CDP enable state across sockets (l3cdp_is_enabled,
register PQOS_MSR_L3_QOS_CFG = 0xC81): a mix of enabled and disabled
sockets is a hard error; otherwise enabled iff some socket is enabled. -/
def l3cdp_is_enabled (hw : HW) (cpu : Cpuinfo) : Except Retval Bool :=
  if cpu.sockets.isEmpty then .error .RESOURCE
  else
    match cdp_tally hw 0xC81 cpu.oneCoreOfSocket cpu.sockets 0 0 with
    | .error rv => .error rv
    | .ok (en, dis) =>
      if 0 < dis ∧ 0 < en then .error .ERROR
      else .ok (decide (0 < en))

/-- Checks L2 CDP enable state across L2 cache clusters
(l2cdp_is_enabled, register PQOS_MSR_L2_QOS_CFG = 0xC82). -/
def l2cdp_is_enabled (hw : HW) (cpu : Cpuinfo) : Except Retval Bool :=
  if cpu.l2ids.isEmpty then .error .RESOURCE
  else
    match cdp_tally hw 0xC82 cpu.oneCoreOfL2id cpu.l2ids 0 0 with
    | .error rv => .error rv
    | .ok (en, dis) =>
      if 0 < dis ∧ 0 < en then .error .ERROR
      else .ok (decide (0 < en))

/-- L3 cache-allocation capability (struct pqos_cap_l3ca). -/
structure CapL3 where
  num_classes : Nat
  num_ways : Nat
  cdp : Bool
  cdp_on : Bool
  way_contention : Nat
  way_size : Nat
  deriving DecidableEq, Repr

/-- Zero-filled CapL3, as produced by the memset in discover_alloc_l3. -/
def cap_l3_zero : CapL3 := ⟨0, 0, false, false, 0, 0⟩

/-- Detects L3 CAT via CPUID.0x10 (discover_alloc_l3_cpuid): requires
the L3 resource bit (id 1) of CPUID.0x10.0 ebx, reads class/way counts
and the CDP-support bit from CPUID.0x10.1, and when CDP is supported
asks the consistency validator whether it is enabled, halving the raw
class count when it is. -/
def discover_alloc_l3_cpuid (hw : HW) (cpu : Cpuinfo) (cap : CapL3) :
    Except Retval CapL3 :=
  let r0 := hw.cpuid 0x10 0x0
  if r0.ebx &&& (1 <<< 1) = 0 then .error .RESOURCE
  else
    let r := hw.cpuid 0x10 1
    let cap := { cap with
      num_classes := r.edx + 1
      num_ways := r.eax + 1
      cdp := ((r.ecx >>> 2) &&& 1) != 0
      cdp_on := false
      way_contention := r.ebx }
    if cap.cdp then
      match l3cdp_is_enabled hw cpu with
      | .error rv => .error rv
      | .ok cdp_on =>
        if cdp_on then
          .ok { cap with cdp_on := true, num_classes := cap.num_classes / 2 }
        else .ok { cap with cdp_on := false }
    else .ok cap

/-- Little-endian byte decomposition of a 32-bit register value, as the
brand-string reconstruction in discover_alloc_l3_brandstr performs. -/
def u32le (n : Nat) : List Nat :=
  [n % 256, n / 256 % 256, n / 65536 % 256, n / 16777216 % 256]

/-- Raw 48 brand-string bytes from CPUID.0x80000002-0x80000004. -/
def brand_bytes (hw : HW) : List Nat :=
  (List.range 3).flatMap (fun i =>
    let r := hw.cpuid (0x80000002 + i) 0
    u32le r.eax ++ u32le r.ebx ++ u32le r.ecx ++ u32le r.edx)

/-- Brand string as a C string: the bytes before the first NUL. -/
def brand_cstr (hw : HW) : List Nat :=
  (brand_bytes hw).takeWhile (fun b => b != 0)

/-- ASCII bytes of a pattern string. -/
def str_bytes (s : String) : List Nat := s.toList.map Char.toNat

/-- Fixed allow-list of brand substrings implying L3 CAT support
(supported_brands in discover_alloc_l3_brandstr). -/
def supported_brands : List (List Nat) :=
  [str_bytes "E5-2658 v3", str_bytes "E5-2648L v3", str_bytes "E5-2628L v3",
   str_bytes "E5-2618L v3", str_bytes "E5-2608L v3", str_bytes "E5-2658A v3",
   str_bytes "E3-1258L v4", str_bytes "E3-1278L v4"]

/-- Whether `s` starts with `pat`. -/
def starts_with_sub : List Nat → List Nat → Bool
  | _, [] => true
  | [], _ :: _ => false
  | a :: s, b :: p => a == b && starts_with_sub s p

/-- Whether `pat` occurs inside `s` (the strstr test of the C code). -/
def strstr_found : List Nat → List Nat → Bool
  | [], pat => pat.isEmpty
  | s :: rest, pat => starts_with_sub (s :: rest) pat || strstr_found rest pat

/-- Brand allow-list match of the running CPU. -/
def brand_match (hw : HW) : Bool :=
  supported_brands.any (fun p => strstr_found (brand_cstr hw) p)

/-- Detects L3 CAT by brand string (discover_alloc_l3_brandstr): ERROR
when the extended CPUID leaves are unavailable, RESOURCE when the brand
is not on the allow-list, otherwise the hardcoded 4 classes. -/
def discover_alloc_l3_brandstr (hw : HW) (cap : CapL3) : Except Retval CapL3 :=
  if (hw.cpuid 0x80000000 0).eax < 0x80000004 then .error .ERROR
  else if brand_match hw then .ok { cap with num_classes := 4 }
  else .error .RESOURCE

/-- Sequential COS-register probe: starting at index `i` with `fuel`
registers left, returns the index of the first failing read (or the
end of the range). -/
def probe_from (hw : HW) (lcore : Nat) : Nat → Nat → Nat
  | i, 0 => i
  | i, fuel + 1 =>
    match hw.msr lcore (0xC90 + i) with
    | none => i
    | some _ => probe_from hw lcore (i + 1) fuel

/-- Detects L3 CAT by probing COS mask registers 0xC90..0xD0F on the
first core (discover_alloc_l3_probe): num_classes is the index of the
first failing register; failure at class 0 means not supported. -/
def discover_alloc_l3_probe (hw : HW) (cpu : Cpuinfo) (cap : CapL3) :
    Except Retval CapL3 :=
  let lcore := cpu.cores.headD 0
  let i := probe_from hw lcore 0 128
  if i = 0 then .error .RESOURCE
  else .ok { cap with num_classes := i }

/-- Discovers L3 CAT (discover_alloc_l3): CPUID method when CPUID.0x7.0
ebx bit 15 is set, otherwise brand-string match first and register
probing second; then cache geometry resolves ways/size (CPUID branch
resolves only the size, the fallback branch also the way count), and
way_size is total size over way count when the latter is nonzero. -/
def discover_alloc_l3 (hw : HW) (cpu : Cpuinfo) : Except Retval CapL3 :=
  let cap := cap_l3_zero
  let r7 := hw.cpuid 0x7 0x0
  let step : Except Retval (CapL3 × Nat) :=
    if r7.ebx &&& (1 <<< 15) ≠ 0 then
      match discover_alloc_l3_cpuid hw cpu cap with
      | .error rv => .error rv
      | .ok cap =>
        match get_cache_info cpu.l3 with
        | .error rv => .error rv
        | .ok (_, l3_size) => .ok (cap, l3_size)
    else
      let r :=
        match discover_alloc_l3_brandstr hw cap with
        | .ok cap2 => Except.ok cap2
        | .error _ => discover_alloc_l3_probe hw cpu cap
      match r with
      | .error rv => .error rv
      | .ok cap =>
        match get_cache_info cpu.l3 with
        | .error rv => .error rv
        | .ok (ways, l3_size) => .ok ({ cap with num_ways := ways }, l3_size)
  match step with
  | .error rv => .error rv
  | .ok (cap, l3_size) =>
    if 0 < cap.num_ways then .ok { cap with way_size := l3_size / cap.num_ways }
    else .ok cap

/-- L2 cache-allocation capability (struct pqos_cap_l2ca). -/
structure CapL2 where
  num_classes : Nat
  num_ways : Nat
  cdp : Bool
  cdp_on : Bool
  way_contention : Nat
  way_size : Nat
  deriving DecidableEq, Repr

/-- Discovers L2 CAT (discover_alloc_l2): gated by CPUID.0x7.0 ebx bit
15 and the L2 resource bit (id 2) of CPUID.0x10.0 ebx, with no fallback
chain; CDP handling mirrors L3 but over L2 clusters, and missing L2
geometry is an ERROR. -/
def discover_alloc_l2 (hw : HW) (cpu : Cpuinfo) : Except Retval CapL2 :=
  let r7 := hw.cpuid 0x7 0x0
  if r7.ebx &&& (1 <<< 15) = 0 then .error .RESOURCE
  else
    let r0 := hw.cpuid 0x10 0x0
    if r0.ebx &&& (1 <<< 2) = 0 then .error .RESOURCE
    else
      let r := hw.cpuid 0x10 2
      let cap : CapL2 :=
        ⟨r.edx + 1, r.eax + 1, ((r.ecx >>> 2) &&& 1) != 0, false, r.ebx, 0⟩
      let next : Except Retval CapL2 :=
        if cap.cdp then
          match l2cdp_is_enabled hw cpu with
          | .error rv => .error rv
          | .ok cdp_on =>
            if cdp_on then
              .ok { cap with cdp_on := true, num_classes := cap.num_classes / 2 }
            else .ok { cap with cdp_on := false }
        else .ok cap
      match next with
      | .error rv => .error rv
      | .ok cap =>
        match get_cache_info cpu.l2 with
        | .error _ => .error .ERROR
        | .ok (_, l2_size) =>
          if 0 < cap.num_ways then
            .ok { cap with way_size := l2_size / cap.num_ways }
          else .ok cap

/-- Memory-bandwidth-allocation capability (struct pqos_cap_mba).
`ctrl` is the tri-state MBA-controller support (-1 unknown). -/
structure CapMba where
  num_classes : Nat
  throttle_max : Nat
  throttle_step : Nat
  is_linear : Bool
  ctrl : Int
  ctrl_on : Bool
  deriving DecidableEq, Repr

/-- Discovers MBA (discover_alloc_mba): gated by CPUID.0x7.0 ebx bit 15
and the MBA resource bit (id 3) of CPUID.0x10.0 ebx; reads class count,
maximum throttling value and the linearity bit from CPUID.0x10.3.
Non-linear mode is rejected with RESOURCE.  The step is the C unsigned
expression 100 - throttle_max, i.e. computed modulo 2^32. -/
def discover_alloc_mba (hw : HW) : Except Retval CapMba :=
  let r7 := hw.cpuid 0x7 0x0
  if r7.ebx &&& (1 <<< 15) = 0 then .error .RESOURCE
  else
    let r0 := hw.cpuid 0x10 0x0
    if r0.ebx &&& (1 <<< 3) = 0 then .error .RESOURCE
    else
      let r := hw.cpuid 0x10 3
      let num_classes := (r.edx &&& 0xffff) + 1
      let throttle_max := (r.eax &&& 0xfff) + 1
      let is_linear := ((r.ecx >>> 2) &&& 1) != 0
      if is_linear then
        .ok ⟨num_classes, throttle_max,
             (100 + 4294967296 - throttle_max) % 4294967296, true, -1, false⟩
      else .error .RESOURCE

/-- One entry of the capability table (struct pqos_capability: a type
tag plus an owning pointer into one of the four payload kinds). -/
inductive Capability
  | mon (m : CapMon)
  | l3ca (c : CapL3)
  | l2ca (c : CapL2)
  | mba (m : CapMba)
  deriving DecidableEq, Repr

/-- Aggregated capability registry (struct pqos_cap). -/
structure PqosCap where
  version : Nat
  capabilities : List Capability
  deriving DecidableEq, Repr

/-- Version tag written into the registry; the constant lives in the
public header outside this module and its value is immaterial here. -/
def PQOS_VERSION : Nat := 0

/-- Aggregation policy of discover_capabilities for one probe result:
a RESOURCE outcome merely omits the record, success keeps it, and any
other outcome aborts discovery with ERROR. -/
def collect_probe {α : Type} (r : Except Retval α) : Except Retval (Option α) :=
  match r with
  | .ok a => .ok (some a)
  | .error .RESOURCE => .ok none
  | .error _ => .error .ERROR

/-- Capability-table entries contributed by one optional payload. -/
def opt_caps {α : Type} (f : α → Capability) (o : Option α) : List Capability :=
  match o with
  | none => []
  | some a => [f a]

/-- Runs the four resource probes and aggregates the registry
(discover_capabilities, instantiated at the MSR interface: the OS
interface would dispatch to os_cap.c probes outside this module).
Fails with ERROR when a probe reports an internal error or when no
capability at all was discovered. -/
def discover_capabilities (hw : HW) (cpu : Cpuinfo) : Except Retval PqosCap :=
  match collect_probe (discover_monitoring hw cpu) with
  | .error rv => .error rv
  | .ok mon =>
    match collect_probe (discover_alloc_l3 hw cpu) with
    | .error rv => .error rv
    | .ok l3 =>
      match collect_probe (discover_alloc_l2 hw cpu) with
      | .error rv => .error rv
      | .ok l2 =>
        match collect_probe (discover_alloc_mba hw) with
        | .error rv => .error rv
        | .ok mba =>
          let caps := opt_caps .mon mon ++ opt_caps .l3ca l3 ++
                      opt_caps .l2ca l2 ++ opt_caps .mba mba
          if caps.isEmpty then .error .ERROR
          else .ok ⟨PQOS_VERSION, caps⟩

/-- Process-wide mutable module state of cap.c: the registry pointer
(m_cap), the topology pointer (m_cpu), the lifecycle flag (m_init_done),
the lock file descriptor (m_apilock, `none` models -1) and the cached
interface selection (m_interface). -/
structure LibState where
  m_cap : Option PqosCap
  m_cpu : Option Cpuinfo
  m_init_done : Bool
  m_apilock : Option Nat
  m_interface : Interface

/-- Configuration passed to pqos_init (struct pqos_config; the logging
fields only feed log_init, whose outcome HW carries). -/
structure Config where
  interface : Interface

/-- RDT_IFACE environment enforcement at the top of pqos_init: absent
means any interface, "OS"/"MSR" pin the interface exactly, anything
else is rejected. -/
def env_iface_ok (env : Option EnvIface) (inter : Interface) : Bool :=
  match env with
  | none => true
  | some .envOs => inter == .os
  | some .envMsr => inter == .msr
  | some .envOther => false

/-- Lifecycle guard (_pqos_check_init): INIT when the initialized flag
disagrees with the expectation, OK otherwise. -/
def _pqos_check_init (st : LibState) (expect : Bool) : Retval :=
  if st.m_init_done && !expect then .INIT
  else if !st.m_init_done && expect then .INIT
  else .OK

/-- State effect of every failure path of pqos_init that runs the
init_error unwind: registry and topology pointers cleared and the API
lock torn down (_pqos_api_exit); the lifecycle flag is left as it was. -/
def init_unwind (st : LibState) : LibState :=
  { st with m_cap := none, m_cpu := none, m_apilock := none }

/-- Library initialization (pqos_init): environment enforcement, API
lock setup (_pqos_api_init fails when the lock descriptor is already
open), lifecycle guard, then log/cpuinfo/machine init, capability
discovery, utils/api init and the allocation/monitoring sub-modules;
any failure unwinds in reverse order and clears the global state.
External steps that fail return their own (non-OK) codes in C; where
those codes originate outside this module they are modelled as ERROR. -/
def pqos_init (hw : HW) (cfg : Config) (st : LibState) : Retval × LibState :=
  if !env_iface_ok hw.env cfg.interface then (.ERROR, st)
  else match st.m_apilock with
  | some _ => (.ERROR, st)
  | none =>
    match hw.openLock with
    | none => (.ERROR, st)
    | some fd =>
      if !hw.mutexInitOk then (.ERROR, st)
      else
        let st := { st with m_apilock := some fd }
        let chk := _pqos_check_init st false
        if chk != .OK then (chk, st)
        else if !hw.logInitOk then (.ERROR, init_unwind st)
        else match hw.cpuinfo with
        | none => (.ERROR, init_unwind st)
        | some cpu =>
          let st := { st with m_cpu := some cpu }
          if !hw.machineInitOk then (.ERROR, init_unwind st)
          else match discover_capabilities hw cpu with
          | .error _ => (.ERROR, init_unwind st)
          | .ok cap =>
            let st := { st with m_cap := some cap }
            if !hw.utilsInitOk then (.ERROR, init_unwind st)
            else if !hw.apiInitOk then (.ERROR, init_unwind st)
            else
              let st := { st with m_interface := cfg.interface }
              if hw.allocInitRet == .BUSY then (.BUSY, init_unwind st)
              else
                let cat_init := hw.allocInitRet == .OK
                let mon_init := hw.monInitRet == .OK
                let ret1 := match hw.monInitRet with
                  | .RESOURCE => Retval.OK
                  | r => r
                let ret2 := if !cat_init && !mon_init then Retval.ERROR else ret1
                if ret2 == .OK then (.OK, { st with m_init_done := true })
                else (ret2, init_unwind st)

/-- Library shutdown (pqos_fini): INIT when not initialized (the API
lock is still torn down afterwards), otherwise all sub-modules are
released with errors accumulated rather than short-circuited, the
registry and topology are cleared and the lifecycle flag reset. -/
def pqos_fini (hw : HW) (st : LibState) : Retval × LibState :=
  let chk := _pqos_check_init st true
  if chk != .OK then (chk, { st with m_apilock := none })
  else
    let retval := Retval.OK
    let retval := if !hw.cpuinfoFiniOk then Retval.ERROR else retval
    let retval := if hw.machineFiniRet != .OK then hw.machineFiniRet else retval
    let retval := if hw.logFiniRet != .OK then hw.logFiniRet else retval
    let retval := if !(hw.closeOk && hw.mutexDestroyOk) then Retval.ERROR else retval
    (retval,
     { st with m_cap := none, m_cpu := none, m_init_done := false,
               m_apilock := none })

/-- Requested CDP mode of the split-mode mutation hooks
(enum pqos_cdp_config). -/
inductive CdpConfig
  | cdpOn
  | cdpOff
  | cdpAny
  deriving DecidableEq, Repr

/-- Requested MBA controller mode (enum pqos_mba_config). -/
inductive MbaConfig
  | mbaDefault
  | mbaCtrl
  | mbaAny
  deriving DecidableEq, Repr

/-- Per-record effect of _pqos_cap_l3cdp_change: turning CDP on when it
is off halves the class count, turning it off when it is on doubles it,
anything else leaves the record alone. -/
def l3cdp_apply (cdp : CdpConfig) (c : CapL3) : CapL3 :=
  if cdp == .cdpOn && !c.cdp_on then
    { c with cdp_on := true, num_classes := c.num_classes / 2 }
  else if cdp == .cdpOff && c.cdp_on then
    { c with cdp_on := false, num_classes := c.num_classes * 2 }
  else c

/-- Per-record effect of _pqos_cap_l2cdp_change. -/
def l2cdp_apply (cdp : CdpConfig) (c : CapL2) : CapL2 :=
  if cdp == .cdpOn && !c.cdp_on then
    { c with cdp_on := true, num_classes := c.num_classes / 2 }
  else if cdp == .cdpOff && c.cdp_on then
    { c with cdp_on := false, num_classes := c.num_classes * 2 }
  else c

/-- Per-record effect of _pqos_cap_mba_change: DEFAULT clears ctrl_on,
CTRL sets ctrl_on (and resolves ctrl to definite support when the
cached interface is not MSR), ANY changes nothing. -/
def mba_apply (inter : Interface) (cfg : MbaConfig) (m : CapMba) : CapMba :=
  match cfg with
  | .mbaDefault => { m with ctrl_on := false }
  | .mbaCtrl =>
    { m with ctrl := if inter != .msr then 1 else m.ctrl, ctrl_on := true }
  | .mbaAny => m

/-- Rewrites the first L3CA record of the capability table in place,
as the lookup loop of _pqos_cap_l3cdp_change does. -/
def update_first_l3 (f : CapL3 → CapL3) : List Capability → List Capability
  | [] => []
  | .l3ca c :: rest => .l3ca (f c) :: rest
  | c :: rest => c :: update_first_l3 f rest

/-- Rewrites the first L2CA record of the capability table in place. -/
def update_first_l2 (f : CapL2 → CapL2) : List Capability → List Capability
  | [] => []
  | .l2ca c :: rest => .l2ca (f c) :: rest
  | c :: rest => c :: update_first_l2 f rest

/-- Rewrites the first MBA record of the capability table in place. -/
def update_first_mba (f : CapMba → CapMba) : List Capability → List Capability
  | [] => []
  | .mba m :: rest => .mba (f m) :: rest
  | c :: rest => c :: update_first_mba f rest

/-- First L3CA record of the capability table, if any. -/
def first_l3 : List Capability → Option CapL3
  | [] => none
  | .l3ca c :: _ => some c
  | _ :: rest => first_l3 rest

/-- First L2CA record of the capability table, if any. -/
def first_l2 : List Capability → Option CapL2
  | [] => none
  | .l2ca c :: _ => some c
  | _ :: rest => first_l2 rest

/-- First MBA record of the capability table, if any. -/
def first_mba : List Capability → Option CapMba
  | [] => none
  | .mba m :: _ => some m
  | _ :: rest => first_mba rest

/-- L3 split-mode mutation hook (_pqos_cap_l3cdp_change) acting on the
registry pointer: a no-op when the registry is absent or holds no L3CA
record. -/
def _pqos_cap_l3cdp_change (cdp : CdpConfig) (m_cap : Option PqosCap) :
    Option PqosCap :=
  match m_cap with
  | none => none
  | some cap =>
    some { cap with capabilities := update_first_l3 (l3cdp_apply cdp) cap.capabilities }

/-- L2 split-mode mutation hook (_pqos_cap_l2cdp_change). -/
def _pqos_cap_l2cdp_change (cdp : CdpConfig) (m_cap : Option PqosCap) :
    Option PqosCap :=
  match m_cap with
  | none => none
  | some cap =>
    some { cap with capabilities := update_first_l2 (l2cdp_apply cdp) cap.capabilities }

/-- MBA controller mutation hook (_pqos_cap_mba_change). -/
def _pqos_cap_mba_change (inter : Interface) (cfg : MbaConfig)
    (m_cap : Option PqosCap) : Option PqosCap :=
  match m_cap with
  | none => none
  | some cap =>
    some { cap with capabilities := update_first_mba (mba_apply inter cfg) cap.capabilities }

/-- Condition asserted at the top of _pqos_cap_mba_change:
`ASSERT(m_cap == NULL)`. -/
def mba_change_assert (m_cap : Option PqosCap) : Bool := m_cap.isNone

/-- Condition asserted at the top of _pqos_cap_l3cdp_change:
`ASSERT(m_cap != NULL)`. -/
def l3cdp_change_assert (m_cap : Option PqosCap) : Bool := !m_cap.isNone

/-- Condition asserted at the top of _pqos_cap_l2cdp_change:
`ASSERT(m_cap != NULL)`. -/
def l2cdp_change_assert (m_cap : Option PqosCap) : Bool := !m_cap.isNone

/-- Decidable equality of probe results, used to evaluate the embedding
on concrete fixtures. -/
instance {ε α : Type} [DecidableEq ε] [DecidableEq α] : DecidableEq (Except ε α) :=
  fun a b =>
    match a, b with
    | .ok x, .ok y =>
      if h : x = y then .isTrue (by rw [h]) else .isFalse (fun he => h (Except.ok.inj he))
    | .error x, .error y =>
      if h : x = y then .isTrue (by rw [h]) else .isFalse (fun he => h (Except.error.inj he))
    | .ok _, .error _ => .isFalse (fun he => Except.noConfusion he)
    | .error _, .ok _ => .isFalse (fun he => Except.noConfusion he)

/-- Builds an environment record around a CPUID responder and an MSR
responder, with every external lifecycle step succeeding. -/
def hw_stub (cpuid : Nat → Nat → CpuidOut) (msr : Nat → Nat → Option Nat) : HW :=
  { cpuid := cpuid, msr := msr, env := none, openLock := some 3,
    mutexInitOk := true, logInitOk := true, cpuinfo := none,
    machineInitOk := true, utilsInitOk := true, apiInitOk := true,
    allocInitRet := .OK, monInitRet := .OK, cpuinfoFiniOk := true,
    machineFiniRet := .OK, logFiniRet := .OK, closeOk := true,
    mutexDestroyOk := true }

/-- Fixture topology: two sockets and two L2 clusters with themselves
as representative cores, detected L3 of 24576 bytes in 12 ways and
detected L2 of 1024 bytes in 8 ways. -/
def cpuFix : Cpuinfo :=
  { cores := [0, 1], sockets := [0, 1], l2ids := [0, 1],
    oneCoreOfSocket := fun s => .ok s, oneCoreOfL2id := fun s => .ok s,
    l3 := ⟨true, 12, 24576⟩, l2 := ⟨true, 8, 1024⟩ }

/-- Fixture CPUID responder for the L3 CAT fixture of the spec: L3 CAT
supported via the direct feature query, CDP-support bit set, raw class
count 16 (edx = 15) and way count 12 (eax = 11). -/
def cpuidFix (leaf sub : Nat) : CpuidOut :=
  if leaf == 0x7 then ⟨0, 32768, 0, 0⟩
  else if leaf == 0x10 && sub == 0 then ⟨0, 2, 0, 0⟩
  else if leaf == 0x10 && sub == 1 then ⟨11, 0, 4, 15⟩
  else ⟨0, 0, 0, 0⟩

/-- Fixture environment with every partition reading split mode
disabled (register 0xC81 reads 0). -/
def hwFix : HW := hw_stub cpuidFix (fun _ r => if r == 0xC81 then some 0 else none)

/-- Variant fixture with every partition reading split mode enabled. -/
def hwFixOn : HW := hw_stub cpuidFix (fun _ r => if r == 0xC81 then some 1 else none)

/-- Capability produced by the disabled fixture. -/
def capL3Fix : CapL3 := ⟨16, 12, true, false, 0, 2048⟩

/-- Capability produced by the enabled variant fixture. -/
def capL3FixOn : CapL3 := ⟨8, 12, true, true, 0, 2048⟩

/-- Registry holding exactly the disabled-fixture L3 record. -/
def regFix : PqosCap := ⟨PQOS_VERSION, [.l3ca capL3Fix]⟩

/-- C4: on the fixture where the direct L3 feature query reports the
split-mode-support bit set, raw class count 16 and way count 12, and
every partition reads split mode disabled, discovery consults the
consistency validator (which reports disabled), produces a capability
with split disabled and num_classes = 16 (the raw count is halved only
when the validator reports enabled, as the enabled variant shows with
num_classes = 8), and a subsequent split-mode-enable mutation leaves
num_classes = 8. -/
theorem claim_C4_l3_fixture :
    l3cdp_is_enabled hwFix cpuFix = .ok false ∧
    discover_alloc_l3 hwFix cpuFix = .ok capL3Fix ∧
    _pqos_cap_l3cdp_change .cdpOn (some regFix) =
      some ⟨PQOS_VERSION, [.l3ca ⟨8, 12, true, true, 0, 2048⟩]⟩ ∧
    l3cdp_is_enabled hwFixOn cpuFix = .ok true ∧
    discover_alloc_l3 hwFixOn cpuFix = .ok capL3FixOn := by
  refine ⟨by decide, by decide, by decide, by decide, by decide⟩

/-- C10: the assertion at the top of the MBA mutation hook demands a
NULL registry, so it is false in every state in which the library is
initialized (registry present) — the only states in which the hook has
any effect, since an absent registry makes it a no-op — while the
sibling split-mode hooks assert the opposite (registry present). -/
theorem claim_C10_mba_assert_inverted :
    (∀ cap : PqosCap, mba_change_assert (some cap) = false) ∧
    (∀ (inter : Interface) (cfg : MbaConfig),
      _pqos_cap_mba_change inter cfg none = none) ∧
    (∀ cap : PqosCap,
      l3cdp_change_assert (some cap) = true ∧
      l2cdp_change_assert (some cap) = true) :=
  ⟨fun _ => rfl, fun _ _ => rfl, fun _ => ⟨rfl, rfl⟩⟩

/-- C6: when the feature-presence bits pass but the linearity bit of
the MBA feature response is clear, the MBA probe rejects the resource
with RESOURCE; any produced capability is linear and its throttling
step is the C unsigned expression 100 - throttle_max, which equals
100 minus the maximum whenever the maximum is at most 100. -/
theorem claim_C6_mba_linearity :
    (∀ hw : HW,
      (hw.cpuid 0x7 0x0).ebx &&& (1 <<< 15) ≠ 0 →
      (hw.cpuid 0x10 0x0).ebx &&& (1 <<< 3) ≠ 0 →
      ((hw.cpuid 0x10 3).ecx >>> 2) &&& 1 = 0 →
      discover_alloc_mba hw = .error .RESOURCE) ∧
    (∀ (hw : HW) (cap : CapMba), discover_alloc_mba hw = .ok cap →
      cap.is_linear = true ∧
      cap.throttle_step = (100 + 4294967296 - cap.throttle_max) % 4294967296 ∧
      (cap.throttle_max ≤ 100 → cap.throttle_step = 100 - cap.throttle_max)) := by
  constructor
  · intro hw h1 h2 h3
    simp only [discover_alloc_mba, h1, h3]
    simp [h1, h2, h3]
  · intro hw cap h
    simp only [discover_alloc_mba] at h
    split at h
    · exact absurd h (by simp)
    split at h
    · exact absurd h (by simp)
    split at h
    · obtain rfl : _ = cap := Except.ok.inj h
      refine ⟨rfl, rfl, fun hle => ?_⟩
      dsimp only at hle ⊢
      omega
    · exact absurd h (by simp)

/-- Fixture MBA feature response with the linearity bit clear. -/
def hwMbaNl : HW := hw_stub
  (fun leaf sub =>
    if leaf == 0x7 then ⟨0, 32768, 0, 0⟩
    else if leaf == 0x10 && sub == 0 then ⟨0, 8, 0, 0⟩
    else if leaf == 0x10 && sub == 3 then ⟨89, 0, 0, 7⟩
    else ⟨0, 0, 0, 0⟩)
  (fun _ _ => none)

/-- Fixture MBA feature response with the linearity bit set
(maximum throttling value 90, eight classes). -/
def hwMbaLin : HW := hw_stub
  (fun leaf sub =>
    if leaf == 0x7 then ⟨0, 32768, 0, 0⟩
    else if leaf == 0x10 && sub == 0 then ⟨0, 8, 0, 0⟩
    else if leaf == 0x10 && sub == 3 then ⟨89, 0, 4, 7⟩
    else ⟨0, 0, 0, 0⟩)
  (fun _ _ => none)

/-- Capability produced from the linear MBA fixture. -/
def capMbaLin : CapMba := ⟨8, 90, 10, true, -1, false⟩

/-- Witness for C6 at the two MBA fixtures. -/
theorem claim_C6_witness :
    discover_alloc_mba hwMbaNl = .error .RESOURCE ∧
    capMbaLin.is_linear = true ∧
    capMbaLin.throttle_step = 100 - capMbaLin.throttle_max :=
  ⟨claim_C6_mba_linearity.1 hwMbaNl (by decide) (by decide) (by decide),
   (claim_C6_mba_linearity.2 hwMbaLin capMbaLin (by decide)).1,
   (claim_C6_mba_linearity.2 hwMbaLin capMbaLin (by decide)).2.2 (by decide)⟩

/-- Unfolds the tally loop when every partition has a representative
core whose split-mode register read succeeds: the loop returns the
accumulators plus the counts of enabled and disabled readings. -/
lemma cdp_tally_reads (hw : HW) (reg : Nat) (getCore : Nat → Except Retval Nat)
    (reading : Nat → Nat) :
    ∀ ps : List Nat,
      (∀ p ∈ ps, ∃ c, getCore p = .ok c ∧ hw.msr c reg = some (reading p)) →
      ∀ en dis, cdp_tally hw reg getCore ps en dis =
        .ok (en + (ps.filter (fun p => reading p &&& 1 != 0)).length,
             dis + (ps.filter (fun p => reading p &&& 1 == 0)).length) := by
  intro ps
  induction ps with
  | nil => intro _ en dis; simp [cdp_tally]
  | cons p rest ih =>
    intro h en dis
    obtain ⟨c, hc, hm⟩ := h p (List.mem_cons_self p rest)
    have hrest := fun q hq => h q (List.mem_cons_of_mem p hq)
    by_cases hb : reading p &&& 1 ≠ 0
    · rw [List.filter_cons_of_pos (by simpa using hb),
          List.filter_cons_of_neg (by simpa using hb)]
      simp only [cdp_tally, hc, hm, if_pos hb, ih hrest]
      simp only [List.length_cons, Except.ok.injEq, Prod.mk.injEq, and_true, true_and]
      omega
    · rw [List.filter_cons_of_neg (by simpa using hb),
          List.filter_cons_of_pos (by simpa using hb)]
      simp only [cdp_tally, hc, hm, if_neg hb, ih hrest]
      simp only [List.length_cons, Except.ok.injEq, Prod.mk.injEq, and_true, true_and]
      omega

/-- C3: for any assignment of per-partition split-mode register
readings (one representative core per socket for L3, per cache-sharing
cluster for L2), if both the enabled tally and the disabled tally are
nonzero the consistency validator returns the fatal ERROR with no
enabled/disabled result; otherwise it returns OK with enabled exactly
when the enabled tally is positive. -/
theorem claim_C3_cdp_consistency :
    ∀ (hw : HW) (cpu : Cpuinfo) (reading : Nat → Nat),
      (cpu.sockets.isEmpty = false →
       (∀ p ∈ cpu.sockets, ∃ c, cpu.oneCoreOfSocket p = .ok c ∧
          hw.msr c 0xC81 = some (reading p)) →
       ((0 < (cpu.sockets.filter (fun p => reading p &&& 1 == 0)).length ∧
         0 < (cpu.sockets.filter (fun p => reading p &&& 1 != 0)).length →
           l3cdp_is_enabled hw cpu = .error .ERROR) ∧
        (¬(0 < (cpu.sockets.filter (fun p => reading p &&& 1 == 0)).length ∧
           0 < (cpu.sockets.filter (fun p => reading p &&& 1 != 0)).length) →
           l3cdp_is_enabled hw cpu =
             .ok (decide (0 < (cpu.sockets.filter
                   (fun p => reading p &&& 1 != 0)).length))))) ∧
      (cpu.l2ids.isEmpty = false →
       (∀ p ∈ cpu.l2ids, ∃ c, cpu.oneCoreOfL2id p = .ok c ∧
          hw.msr c 0xC82 = some (reading p)) →
       ((0 < (cpu.l2ids.filter (fun p => reading p &&& 1 == 0)).length ∧
         0 < (cpu.l2ids.filter (fun p => reading p &&& 1 != 0)).length →
           l2cdp_is_enabled hw cpu = .error .ERROR) ∧
        (¬(0 < (cpu.l2ids.filter (fun p => reading p &&& 1 == 0)).length ∧
           0 < (cpu.l2ids.filter (fun p => reading p &&& 1 != 0)).length) →
           l2cdp_is_enabled hw cpu =
             .ok (decide (0 < (cpu.l2ids.filter
                   (fun p => reading p &&& 1 != 0)).length))))) := by
  intro hw cpu reading
  constructor
  · intro hne h
    have ht := cdp_tally_reads hw 0xC81 cpu.oneCoreOfSocket reading cpu.sockets h 0 0
    simp only [Nat.zero_add] at ht
    constructor
    · intro hcond
      simp only [l3cdp_is_enabled, hne, Bool.false_eq_true, if_false, ht]
      rw [if_pos hcond]
    · intro hcond
      simp only [l3cdp_is_enabled, hne, Bool.false_eq_true, if_false, ht]
      rw [if_neg hcond]
  · intro hne h
    have ht := cdp_tally_reads hw 0xC82 cpu.oneCoreOfL2id reading cpu.l2ids h 0 0
    simp only [Nat.zero_add] at ht
    constructor
    · intro hcond
      simp only [l2cdp_is_enabled, hne, Bool.false_eq_true, if_false, ht]
      rw [if_pos hcond]
    · intro hcond
      simp only [l2cdp_is_enabled, hne, Bool.false_eq_true, if_false, ht]
      rw [if_neg hcond]

/-- Fixture environment in which socket 0 reads split mode disabled and
socket 1 reads it enabled (each representative core reads its own id). -/
def hwMix : HW := hw_stub (fun _ _ => ⟨0, 0, 0, 0⟩) (fun c _ => some c)

/-- Witness for C3: mixed readings are the fatal ERROR, uniformly
disabled readings yield OK with enabled = false. -/
theorem claim_C3_witness :
    l3cdp_is_enabled hwMix cpuFix = .error .ERROR ∧
    l3cdp_is_enabled hwFix cpuFix = .ok false := by
  constructor
  · exact ((claim_C3_cdp_consistency hwMix cpuFix (fun p => p)).1 (by decide)
      (by intro p hp
          simp only [cpuFix, List.mem_cons, List.not_mem_nil, or_false] at hp
          rcases hp with rfl | rfl
          · exact ⟨0, rfl, rfl⟩
          · exact ⟨1, rfl, rfl⟩)).1 (by decide)
  · have h2 := ((claim_C3_cdp_consistency hwFix cpuFix (fun _ => 0)).1 (by decide)
      (by intro p hp
          simp only [cpuFix, List.mem_cons, List.not_mem_nil, or_false] at hp
          rcases hp with rfl | rfl
          · exact ⟨0, rfl, rfl⟩
          · exact ⟨1, rfl, rfl⟩)).2 (by decide)
    exact h2.trans (by decide)

/-- Rewriting with the identity leaves the capability table unchanged. -/
lemma update_first_l3_id : ∀ l, update_first_l3 (fun c => c) l = l := by
  intro l
  induction l with
  | nil => rfl
  | cons x rest ih => cases x <;> simp [update_first_l3, ih]

/-- Two first-L3CA rewrites compose into one. -/
lemma update_first_l3_comp (f g : CapL3 → CapL3) :
    ∀ l, update_first_l3 f (update_first_l3 g l) =
      update_first_l3 (fun c => f (g c)) l := by
  intro l
  induction l with
  | nil => rfl
  | cons x rest ih => cases x <;> simp [update_first_l3, ih]

/-- A first-L3CA rewrite only depends on the function's value at the
first L3CA record. -/
lemma update_first_l3_congr (f g : CapL3 → CapL3) :
    ∀ l c, first_l3 l = some c → f c = g c →
      update_first_l3 f l = update_first_l3 g l := by
  intro l
  induction l with
  | nil => intro c h _; simp [first_l3] at h
  | cons x rest ih =>
    intro c h hfg
    cases x with
    | l3ca y =>
      simp only [first_l3, Option.some.injEq] at h
      subst h
      simp [update_first_l3, hfg]
    | mon m =>
      simp only [first_l3] at h
      simp only [update_first_l3]
      rw [ih c h hfg]
    | l2ca y =>
      simp only [first_l3] at h
      simp only [update_first_l3]
      rw [ih c h hfg]
    | mba m =>
      simp only [first_l3] at h
      simp only [update_first_l3]
      rw [ih c h hfg]

/-- Without an L3CA record the rewrite is a no-op. -/
lemma update_first_l3_none (f : CapL3 → CapL3) :
    ∀ l, first_l3 l = none → update_first_l3 f l = l := by
  intro l
  induction l with
  | nil => intro _; rfl
  | cons x rest ih =>
    intro h
    cases x with
    | l3ca y => simp [first_l3] at h
    | mon m => simp only [first_l3] at h; simp [update_first_l3, ih h]
    | l2ca y => simp only [first_l3] at h; simp [update_first_l3, ih h]
    | mba m => simp only [first_l3] at h; simp [update_first_l3, ih h]

/-- First L3CA record after a first-L3CA rewrite. -/
lemma first_l3_update (f : CapL3 → CapL3) :
    ∀ l, first_l3 (update_first_l3 f l) = (first_l3 l).map f := by
  intro l
  induction l with
  | nil => rfl
  | cons x rest ih => cases x <;> simp [first_l3, update_first_l3, ih]

/-- Enabling then disabling split mode restores a record that started
disabled with an even class count. -/
lemma l3cdp_apply_on_off (c : CapL3) (heven : c.num_classes % 2 = 0)
    (hoff : c.cdp_on = false) :
    l3cdp_apply .cdpOff (l3cdp_apply .cdpOn c) = c := by
  cases c with
  | mk nc nw cdp cdpon wc ws =>
    simp only at heven hoff
    subst hoff
    simp [l3cdp_apply]
    omega

/-- Enabling split mode on an already-enabled record changes nothing. -/
lemma l3cdp_apply_on_noop (c : CapL3) (h : c.cdp_on = true) :
    l3cdp_apply .cdpOn c = c := by
  simp [l3cdp_apply, h]

/-- Disabling split mode on an already-disabled record changes nothing. -/
lemma l3cdp_apply_off_noop (c : CapL3) (h : c.cdp_on = false) :
    l3cdp_apply .cdpOff c = c := by
  simp [l3cdp_apply, h]

/-- Registry-level enable/disable round trip for L3. -/
lemma l3cdp_change_roundtrip (cap : PqosCap) (c : CapL3)
    (h : first_l3 cap.capabilities = some c)
    (heven : c.num_classes % 2 = 0) (hoff : c.cdp_on = false) :
    _pqos_cap_l3cdp_change .cdpOff (_pqos_cap_l3cdp_change .cdpOn (some cap)) =
      some cap := by
  simp only [_pqos_cap_l3cdp_change]
  rw [update_first_l3_comp, update_first_l3_congr _ (fun x => x) cap.capabilities c h
        (l3cdp_apply_on_off c heven hoff), update_first_l3_id]

/-- Registry-level no-op of the L3 hook when the requested mode already
holds or no record exists. -/
lemma l3cdp_change_noop (cdp : CdpConfig) (cap : PqosCap) (c : CapL3)
    (h : first_l3 cap.capabilities = some c) (happ : l3cdp_apply cdp c = c) :
    _pqos_cap_l3cdp_change cdp (some cap) = some cap := by
  simp only [_pqos_cap_l3cdp_change]
  rw [update_first_l3_congr _ (fun x => x) cap.capabilities c h happ,
      update_first_l3_id]

/-- Alternating sequence of L3 split-mode hook invocations (enable,
disable, enable, ...) applied left to right; the flag says whether the
next toggle is an enable. -/
def l3_alt_toggle : Nat → Bool → Option PqosCap → Option PqosCap
  | 0, _, s => s
  | n + 1, enableNext, s =>
    l3_alt_toggle n (!enableNext)
      (_pqos_cap_l3cdp_change (if enableNext then .cdpOn else .cdpOff) s)

/-- Two alternating toggles cancel on a state with the round-trip
property. -/
lemma l3_alt_toggle_step2 (s : Option PqosCap)
    (hs : _pqos_cap_l3cdp_change .cdpOff (_pqos_cap_l3cdp_change .cdpOn s) = s) :
    ∀ n, l3_alt_toggle (n + 2) true s = l3_alt_toggle n true s := by
  intro n
  show l3_alt_toggle n true
    (_pqos_cap_l3cdp_change .cdpOff (_pqos_cap_l3cdp_change .cdpOn s)) =
    l3_alt_toggle n true s
  rw [hs]

/-- An even number of alternating toggles is the identity. -/
lemma l3_alt_toggle_even (s : Option PqosCap)
    (hs : _pqos_cap_l3cdp_change .cdpOff (_pqos_cap_l3cdp_change .cdpOn s) = s) :
    ∀ k, l3_alt_toggle (2 * k) true s = s := by
  intro k
  induction k with
  | zero => rfl
  | succ k ih =>
    rw [show 2 * (k + 1) = 2 * k + 2 from by ring, l3_alt_toggle_step2 s hs, ih]

/-- An odd number of alternating toggles amounts to one enable. -/
lemma l3_alt_toggle_odd (s : Option PqosCap)
    (hs : _pqos_cap_l3cdp_change .cdpOff (_pqos_cap_l3cdp_change .cdpOn s) = s) :
    ∀ k, l3_alt_toggle (2 * k + 1) true s = _pqos_cap_l3cdp_change .cdpOn s := by
  intro k
  induction k with
  | zero => rfl
  | succ k ih =>
    rw [show 2 * (k + 1) + 1 = (2 * k + 1) + 2 from by ring,
        l3_alt_toggle_step2 s hs, ih]

/-- Class count of the first L3CA record behind the registry pointer. -/
def first_l3_classes (s : Option PqosCap) : Option Nat :=
  match s with
  | none => none
  | some cap => (first_l3 cap.capabilities).map (fun c => c.num_classes)

/-- Rewriting with the identity leaves the capability table unchanged. -/
lemma update_first_l2_id : ∀ l, update_first_l2 (fun c => c) l = l := by
  intro l
  induction l with
  | nil => rfl
  | cons x rest ih => cases x <;> simp [update_first_l2, ih]

/-- Two first-L2CA rewrites compose into one. -/
lemma update_first_l2_comp (f g : CapL2 → CapL2) :
    ∀ l, update_first_l2 f (update_first_l2 g l) =
      update_first_l2 (fun c => f (g c)) l := by
  intro l
  induction l with
  | nil => rfl
  | cons x rest ih => cases x <;> simp [update_first_l2, ih]

/-- A first-L2CA rewrite only depends on the function's value at the
first L2CA record. -/
lemma update_first_l2_congr (f g : CapL2 → CapL2) :
    ∀ l c, first_l2 l = some c → f c = g c →
      update_first_l2 f l = update_first_l2 g l := by
  intro l
  induction l with
  | nil => intro c h _; simp [first_l2] at h
  | cons x rest ih =>
    intro c h hfg
    cases x with
    | l2ca y =>
      simp only [first_l2, Option.some.injEq] at h
      subst h
      simp [update_first_l2, hfg]
    | mon m =>
      simp only [first_l2] at h
      simp only [update_first_l2]
      rw [ih c h hfg]
    | l3ca y =>
      simp only [first_l2] at h
      simp only [update_first_l2]
      rw [ih c h hfg]
    | mba m =>
      simp only [first_l2] at h
      simp only [update_first_l2]
      rw [ih c h hfg]

/-- Without an L2CA record the rewrite is a no-op. -/
lemma update_first_l2_none (f : CapL2 → CapL2) :
    ∀ l, first_l2 l = none → update_first_l2 f l = l := by
  intro l
  induction l with
  | nil => intro _; rfl
  | cons x rest ih =>
    intro h
    cases x with
    | l2ca y => simp [first_l2] at h
    | mon m => simp only [first_l2] at h; simp [update_first_l2, ih h]
    | l3ca y => simp only [first_l2] at h; simp [update_first_l2, ih h]
    | mba m => simp only [first_l2] at h; simp [update_first_l2, ih h]

/-- First L2CA record after a first-L2CA rewrite. -/
lemma first_l2_update (f : CapL2 → CapL2) :
    ∀ l, first_l2 (update_first_l2 f l) = (first_l2 l).map f := by
  intro l
  induction l with
  | nil => rfl
  | cons x rest ih => cases x <;> simp [first_l2, update_first_l2, ih]

/-- Enabling then disabling split mode restores an L2 record that
started disabled with an even class count. -/
lemma l2cdp_apply_on_off (c : CapL2) (heven : c.num_classes % 2 = 0)
    (hoff : c.cdp_on = false) :
    l2cdp_apply .cdpOff (l2cdp_apply .cdpOn c) = c := by
  cases c with
  | mk nc nw cdp cdpon wc ws =>
    simp only at heven hoff
    subst hoff
    simp [l2cdp_apply]
    omega

/-- Enabling split mode on an already-enabled L2 record changes
nothing. -/
lemma l2cdp_apply_on_noop (c : CapL2) (h : c.cdp_on = true) :
    l2cdp_apply .cdpOn c = c := by
  simp [l2cdp_apply, h]

/-- Disabling split mode on an already-disabled L2 record changes
nothing. -/
lemma l2cdp_apply_off_noop (c : CapL2) (h : c.cdp_on = false) :
    l2cdp_apply .cdpOff c = c := by
  simp [l2cdp_apply, h]

/-- Registry-level enable/disable round trip for L2. -/
lemma l2cdp_change_roundtrip (cap : PqosCap) (c : CapL2)
    (h : first_l2 cap.capabilities = some c)
    (heven : c.num_classes % 2 = 0) (hoff : c.cdp_on = false) :
    _pqos_cap_l2cdp_change .cdpOff (_pqos_cap_l2cdp_change .cdpOn (some cap)) =
      some cap := by
  simp only [_pqos_cap_l2cdp_change]
  rw [update_first_l2_comp, update_first_l2_congr _ (fun x => x) cap.capabilities c h
        (l2cdp_apply_on_off c heven hoff), update_first_l2_id]

/-- Registry-level no-op of the L2 hook when the requested mode already
holds or no record exists. -/
lemma l2cdp_change_noop (cdp : CdpConfig) (cap : PqosCap) (c : CapL2)
    (h : first_l2 cap.capabilities = some c) (happ : l2cdp_apply cdp c = c) :
    _pqos_cap_l2cdp_change cdp (some cap) = some cap := by
  simp only [_pqos_cap_l2cdp_change]
  rw [update_first_l2_congr _ (fun x => x) cap.capabilities c h happ,
      update_first_l2_id]

/-- Alternating sequence of L2 split-mode hook invocations. -/
def l2_alt_toggle : Nat → Bool → Option PqosCap → Option PqosCap
  | 0, _, s => s
  | n + 1, enableNext, s =>
    l2_alt_toggle n (!enableNext)
      (_pqos_cap_l2cdp_change (if enableNext then .cdpOn else .cdpOff) s)

/-- Two alternating L2 toggles cancel on a state with the round-trip
property. -/
lemma l2_alt_toggle_step2 (s : Option PqosCap)
    (hs : _pqos_cap_l2cdp_change .cdpOff (_pqos_cap_l2cdp_change .cdpOn s) = s) :
    ∀ n, l2_alt_toggle (n + 2) true s = l2_alt_toggle n true s := by
  intro n
  show l2_alt_toggle n true
    (_pqos_cap_l2cdp_change .cdpOff (_pqos_cap_l2cdp_change .cdpOn s)) =
    l2_alt_toggle n true s
  rw [hs]

/-- An even number of alternating L2 toggles is the identity. -/
lemma l2_alt_toggle_even (s : Option PqosCap)
    (hs : _pqos_cap_l2cdp_change .cdpOff (_pqos_cap_l2cdp_change .cdpOn s) = s) :
    ∀ k, l2_alt_toggle (2 * k) true s = s := by
  intro k
  induction k with
  | zero => rfl
  | succ k ih =>
    rw [show 2 * (k + 1) = 2 * k + 2 from by ring, l2_alt_toggle_step2 s hs, ih]

/-- An odd number of alternating L2 toggles amounts to one enable. -/
lemma l2_alt_toggle_odd (s : Option PqosCap)
    (hs : _pqos_cap_l2cdp_change .cdpOff (_pqos_cap_l2cdp_change .cdpOn s) = s) :
    ∀ k, l2_alt_toggle (2 * k + 1) true s = _pqos_cap_l2cdp_change .cdpOn s := by
  intro k
  induction k with
  | zero => rfl
  | succ k ih =>
    rw [show 2 * (k + 1) + 1 = (2 * k + 1) + 2 from by ring,
        l2_alt_toggle_step2 s hs, ih]

/-- Class count of the first L2CA record behind the registry pointer. -/
def first_l2_classes (s : Option PqosCap) : Option Nat :=
  match s with
  | none => none
  | some cap => (first_l2 cap.capabilities).map (fun c => c.num_classes)

/-- Alternating L3 toggles restore the class count exactly for an even
number of toggles. -/
lemma l3_alt_classes_iff (cap : PqosCap) (c : CapL3)
    (h : first_l3 cap.capabilities = some c)
    (heven : c.num_classes % 2 = 0) (hoff : c.cdp_on = false)
    (hpos : 0 < c.num_classes) :
    ∀ n, (first_l3_classes (l3_alt_toggle n true (some cap)) = some c.num_classes ↔
      n % 2 = 0) := by
  intro n
  have hs := l3cdp_change_roundtrip cap c h heven hoff
  rcases Nat.even_or_odd n with he | ho
  · obtain ⟨k, hk⟩ := he
    subst hk
    rw [show k + k = 2 * k from by ring, l3_alt_toggle_even _ hs k]
    simp only [first_l3_classes, h, Option.map_some']
    constructor
    · intro _; omega
    · intro _; trivial
  · obtain ⟨k, hk⟩ := ho
    subst hk
    rw [l3_alt_toggle_odd _ hs k]
    simp only [_pqos_cap_l3cdp_change, first_l3_classes, first_l3_update, h,
      Option.map_map, Option.map_some', Function.comp]
    simp only [l3cdp_apply, hoff]
    simp only [beq_self_eq_true, Bool.not_false, Bool.and_self, if_true,
      Option.some.injEq]
    constructor
    · intro hcc
      exfalso
      have hlt : c.num_classes / 2 < c.num_classes :=
        Nat.div_lt_self hpos (by norm_num)
      omega
    · intro hm
      exact absurd hm (by omega)

/-- Alternating L2 toggles restore the class count exactly for an even
number of toggles. -/
lemma l2_alt_classes_iff (cap : PqosCap) (c : CapL2)
    (h : first_l2 cap.capabilities = some c)
    (heven : c.num_classes % 2 = 0) (hoff : c.cdp_on = false)
    (hpos : 0 < c.num_classes) :
    ∀ n, (first_l2_classes (l2_alt_toggle n true (some cap)) = some c.num_classes ↔
      n % 2 = 0) := by
  intro n
  have hs := l2cdp_change_roundtrip cap c h heven hoff
  rcases Nat.even_or_odd n with he | ho
  · obtain ⟨k, hk⟩ := he
    subst hk
    rw [show k + k = 2 * k from by ring, l2_alt_toggle_even _ hs k]
    simp only [first_l2_classes, h, Option.map_some']
    constructor
    · intro _; omega
    · intro _; trivial
  · obtain ⟨k, hk⟩ := ho
    subst hk
    rw [l2_alt_toggle_odd _ hs k]
    simp only [_pqos_cap_l2cdp_change, first_l2_classes, first_l2_update, h,
      Option.map_map, Option.map_some', Function.comp]
    simp only [l2cdp_apply, hoff]
    simp only [beq_self_eq_true, Bool.not_false, Bool.and_self, if_true,
      Option.some.injEq]
    constructor
    · intro hcc
      exfalso
      have hlt : c.num_classes / 2 < c.num_classes :=
        Nat.div_lt_self hpos (by norm_num)
      omega
    · intro hm
      exact absurd hm (by omega)

/-- C5: for a registry whose L3 (resp. L2) allocation record has an
even, positive class count and split mode off, the split-mode mutation
hook is a round trip — enabling then disabling restores the record, and
an alternating sequence of single toggles restores the class count
exactly when the number of unmatched enables (the parity of the
sequence) is even; the hook is a no-op when no record of its kind
exists or the registry is absent, and idempotent when the requested
mode already holds (enable halves the count only off-to-on, disable
doubles it only on-to-off). -/
theorem claim_C5_split_roundtrip :
    (∀ (cap : PqosCap) (c : CapL3),
      first_l3 cap.capabilities = some c →
      c.num_classes % 2 = 0 → c.cdp_on = false →
      (_pqos_cap_l3cdp_change .cdpOff (_pqos_cap_l3cdp_change .cdpOn (some cap)) =
        some cap ∧
       (0 < c.num_classes → ∀ n,
         (first_l3_classes (l3_alt_toggle n true (some cap)) = some c.num_classes ↔
          n % 2 = 0)))) ∧
    (∀ (cdp : CdpConfig) (cap : PqosCap), first_l3 cap.capabilities = none →
      _pqos_cap_l3cdp_change cdp (some cap) = some cap) ∧
    (∀ cdp : CdpConfig, _pqos_cap_l3cdp_change cdp none = none) ∧
    (∀ (cap : PqosCap) (c : CapL3), first_l3 cap.capabilities = some c →
      c.cdp_on = true → _pqos_cap_l3cdp_change .cdpOn (some cap) = some cap) ∧
    (∀ (cap : PqosCap) (c : CapL3), first_l3 cap.capabilities = some c →
      c.cdp_on = false → _pqos_cap_l3cdp_change .cdpOff (some cap) = some cap) ∧
    (∀ (cap : PqosCap) (c : CapL2),
      first_l2 cap.capabilities = some c →
      c.num_classes % 2 = 0 → c.cdp_on = false →
      (_pqos_cap_l2cdp_change .cdpOff (_pqos_cap_l2cdp_change .cdpOn (some cap)) =
        some cap ∧
       (0 < c.num_classes → ∀ n,
         (first_l2_classes (l2_alt_toggle n true (some cap)) = some c.num_classes ↔
          n % 2 = 0)))) ∧
    (∀ (cdp : CdpConfig) (cap : PqosCap), first_l2 cap.capabilities = none →
      _pqos_cap_l2cdp_change cdp (some cap) = some cap) ∧
    (∀ cdp : CdpConfig, _pqos_cap_l2cdp_change cdp none = none) ∧
    (∀ (cap : PqosCap) (c : CapL2), first_l2 cap.capabilities = some c →
      c.cdp_on = true → _pqos_cap_l2cdp_change .cdpOn (some cap) = some cap) ∧
    (∀ (cap : PqosCap) (c : CapL2), first_l2 cap.capabilities = some c →
      c.cdp_on = false → _pqos_cap_l2cdp_change .cdpOff (some cap) = some cap) := by
  refine ⟨?_, ?_, ?_, ?_, ?_, ?_, ?_, ?_, ?_, ?_⟩
  · intro cap c h heven hoff
    exact ⟨l3cdp_change_roundtrip cap c h heven hoff,
      fun hpos => l3_alt_classes_iff cap c h heven hoff hpos⟩
  · intro cdp cap h
    simp only [_pqos_cap_l3cdp_change]
    rw [update_first_l3_none _ _ h]
  · intro cdp; rfl
  · intro cap c h hon
    exact l3cdp_change_noop .cdpOn cap c h (l3cdp_apply_on_noop c hon)
  · intro cap c h hoff
    exact l3cdp_change_noop .cdpOff cap c h (l3cdp_apply_off_noop c hoff)
  · intro cap c h heven hoff
    exact ⟨l2cdp_change_roundtrip cap c h heven hoff,
      fun hpos => l2_alt_classes_iff cap c h heven hoff hpos⟩
  · intro cdp cap h
    simp only [_pqos_cap_l2cdp_change]
    rw [update_first_l2_none _ _ h]
  · intro cdp; rfl
  · intro cap c h hon
    exact l2cdp_change_noop .cdpOn cap c h (l2cdp_apply_on_noop c hon)
  · intro cap c h hoff
    exact l2cdp_change_noop .cdpOff cap c h (l2cdp_apply_off_noop c hoff)

/-- Registry with an L2 record only, used to exercise the L2 hook. -/
def regFixL2 : PqosCap := ⟨PQOS_VERSION, [.l2ca ⟨8, 8, true, false, 0, 128⟩]⟩

/-- Witness for C5 at concrete registries. -/
theorem claim_C5_witness :
    (_pqos_cap_l3cdp_change .cdpOff (_pqos_cap_l3cdp_change .cdpOn (some regFix)) =
      some regFix) ∧
    first_l3_classes (l3_alt_toggle 2 true (some regFix)) = some 16 ∧
    _pqos_cap_l3cdp_change .cdpOff (some regFix) = some regFix ∧
    _pqos_cap_l3cdp_change .cdpOn (some regFixL2) = some regFixL2 ∧
    (_pqos_cap_l2cdp_change .cdpOff (_pqos_cap_l2cdp_change .cdpOn (some regFixL2)) =
      some regFixL2) :=
  ⟨(claim_C5_split_roundtrip.1 regFix capL3Fix rfl (by decide) rfl).1,
   ((claim_C5_split_roundtrip.1 regFix capL3Fix rfl (by decide) rfl).2
      (by decide) 2).mpr (by decide),
   claim_C5_split_roundtrip.2.2.2.2.1 regFix capL3Fix rfl rfl,
   claim_C5_split_roundtrip.2.1 .cdpOn regFixL2 rfl,
   (claim_C5_split_roundtrip.2.2.2.2.2.1 regFixL2 ⟨8, 8, true, false, 0, 128⟩
      rfl (by decide) rfl).1⟩

/-- C1 (amended): a successful `pqos_init` leaves the library
initialized with the API lock descriptor open; while that descriptor is
open — as after any successful initialization with no intervening
shutdown — a second `pqos_init` fails in `_pqos_api_init` and returns
the generic ERROR (not the INIT state error) without touching the
state; `pqos_fini` without a prior initialization returns INIT. -/
theorem claim_C1_lifecycle_guard :
    (∀ (hw : HW) (cfg : Config) (st : LibState),
      (pqos_init hw cfg st).1 = .OK →
      (pqos_init hw cfg st).2.m_init_done = true ∧
      (pqos_init hw cfg st).2.m_apilock ≠ none) ∧
    (∀ (hw : HW) (cfg : Config) (st : LibState),
      st.m_apilock ≠ none → pqos_init hw cfg st = (.ERROR, st)) ∧
    (∀ (hw : HW) (st : LibState),
      st.m_init_done = false → (pqos_fini hw st).1 = .INIT) := by
  refine ⟨?_, ?_, ?_⟩
  · intro hw cfg st h
    unfold pqos_init at h ⊢
    by_cases he : env_iface_ok hw.env cfg.interface
    swap
    · simp [he] at h
    simp only [he, Bool.not_true] at h ⊢
    rcases hlk : st.m_apilock with _ | fd
    swap
    · simp [hlk] at h
    simp only [hlk] at h ⊢
    rcases hol : hw.openLock with _ | fd
    · simp [hol] at h
    simp only [hol] at h ⊢
    by_cases hmx : hw.mutexInitOk
    swap
    · simp [hmx] at h
    simp only [hmx, Bool.not_true] at h ⊢
    by_cases hid : st.m_init_done
    · simp [_pqos_check_init, hid] at h
    simp only [_pqos_check_init, hid] at h ⊢
    by_cases hlg : hw.logInitOk
    swap
    · simp [hlg] at h
    simp only [hlg, Bool.not_true] at h ⊢
    rcases hcpu : hw.cpuinfo with _ | cpu
    · simp [hcpu] at h
    simp only [hcpu] at h ⊢
    by_cases hmc : hw.machineInitOk
    swap
    · simp [hmc] at h
    simp only [hmc, Bool.not_true] at h ⊢
    rcases hdc : discover_capabilities hw cpu with e | cap
    · simp [hdc] at h
    simp only [hdc] at h ⊢
    by_cases hut : hw.utilsInitOk
    swap
    · simp [hut] at h
    simp only [hut, Bool.not_true] at h ⊢
    by_cases hap : hw.apiInitOk
    swap
    · simp [hap] at h
    simp only [hap, Bool.not_true] at h ⊢
    by_cases hbz : hw.allocInitRet = .BUSY
    · simp [hbz] at h
    by_cases halc : hw.allocInitRet = .OK
    all_goals rcases hmn : hw.monInitRet with _ | _ | _ | _ | _ | _
    all_goals simp only [hbz, halc, hmn, if_neg, if_pos, beq_self_eq_true,
      beq_iff_eq, reduceCtorEq, Bool.not_true, Bool.not_false, Bool.and_self,
      Bool.and_true, Bool.true_and, Bool.false_and, Bool.and_false,
      if_true, if_false, reduceIte] at h ⊢
    all_goals first
      | (exact ⟨rfl, by simp⟩)
      | simp_all
  · intro hw cfg st h
    obtain ⟨fd, hfd⟩ := Option.ne_none_iff_exists'.mp h
    simp only [pqos_init, hfd]
    split <;> rfl
  · intro hw st h
    simp [pqos_fini, _pqos_check_init, h]

/-- Fixture CPUID responder advertising only the monitoring capability
(occupancy event alone). -/
def cpuidMon (leaf sub : Nat) : CpuidOut :=
  if leaf == 0x7 then ⟨0, 4096, 0, 0⟩
  else if leaf == 0xf && sub == 0 then ⟨0, 5, 0, 2⟩
  else if leaf == 0xf && sub == 1 then ⟨0, 1, 9, 1⟩
  else if leaf == 0xa then ⟨0, 3, 0, 0⟩
  else ⟨0, 0, 0, 0⟩

/-- Fixture environment on which every step of initialization
succeeds. -/
def hwGood : HW := { hw_stub cpuidMon (fun _ _ => none) with cpuinfo := some cpuFix }

/-- Configuration selecting the direct-register interface. -/
def cfgMsr : Config := ⟨.msr⟩

/-- Fresh (uninitialized) module state. -/
def st0 : LibState := ⟨none, none, false, none, .msr⟩

/-- Module state with the library initialized and the lock descriptor
open. -/
def stInit : LibState := ⟨none, none, true, some 3, .msr⟩

/-- Counterexample to C1 as stated: on hwGood the first `pqos_init`
succeeds, and a second call without an intervening shutdown returns the
generic ERROR — not the INIT state error the claim names. -/
theorem claim_C1_counterexample :
    (pqos_init hwGood cfgMsr st0).1 = .OK ∧
    (pqos_init hwGood cfgMsr (pqos_init hwGood cfgMsr st0).2).1 = .ERROR ∧
    (pqos_init hwGood cfgMsr (pqos_init hwGood cfgMsr st0).2).1 ≠ .INIT := by
  refine ⟨by decide, by decide, by decide⟩

/-- Witness for C1 (amended) at the concrete fixtures. -/
theorem claim_C1_witness :
    pqos_init hwGood cfgMsr stInit = (.ERROR, stInit) ∧
    (pqos_fini hwGood st0).1 = .INIT ∧
    ((pqos_init hwGood cfgMsr st0).2.m_init_done = true ∧
     (pqos_init hwGood cfgMsr st0).2.m_apilock ≠ none) :=
  ⟨claim_C1_lifecycle_guard.2.1 hwGood cfgMsr stInit (by decide),
   claim_C1_lifecycle_guard.2.2 hwGood st0 rfl,
   claim_C1_lifecycle_guard.1 hwGood cfgMsr st0 (by decide)⟩

/-- A probe outcome counting as an internal inconsistency for the
aggregation switch: any error other than "resource not present". -/
def probe_internal_error {α : Type} (r : Except Retval α) : Prop :=
  ∃ rv, r = .error rv ∧ rv ≠ .RESOURCE

/-- Records contributed by the four probes, in discovery order. -/
def probe_caps (hw : HW) (cpu : Cpuinfo) : List Capability :=
  (match discover_monitoring hw cpu with
   | .ok m => [Capability.mon m] | .error _ => []) ++
  (match discover_alloc_l3 hw cpu with
   | .ok c => [Capability.l3ca c] | .error _ => []) ++
  (match discover_alloc_l2 hw cpu with
   | .ok c => [Capability.l2ca c] | .error _ => []) ++
  (match discover_alloc_mba hw with
   | .ok m => [Capability.mba m] | .error _ => [])

/-- Every probe outcome is a success, a not-present, or an internal
error. -/
lemma except_tri {α : Type} (r : Except Retval α) :
    (∃ a, r = .ok a) ∨ r = .error .RESOURCE ∨
    (∃ rv, r = .error rv ∧ rv ≠ .RESOURCE) := by
  rcases r with e | a
  · by_cases he : e = .RESOURCE
    · subst he; exact .inr (.inl rfl)
    · exact .inr (.inr ⟨e, rfl, he⟩)
  · exact .inl ⟨a, rfl⟩

/-- Aggregating an internal probe error aborts with ERROR. -/
lemma collect_probe_err {α : Type} (rv : Retval) (h : rv ≠ .RESOURCE) :
    collect_probe (α := α) (.error rv) = .error .ERROR := by
  cases rv <;> simp_all [collect_probe]

/-- With all four probes reporting not-present, discovery fails with
ERROR (zero records). -/
lemma discover_all_resource (hw : HW) (cpu : Cpuinfo)
    (h1 : discover_monitoring hw cpu = .error .RESOURCE)
    (h2 : discover_alloc_l3 hw cpu = .error .RESOURCE)
    (h3 : discover_alloc_l2 hw cpu = .error .RESOURCE)
    (h4 : discover_alloc_mba hw = .error .RESOURCE) :
    discover_capabilities hw cpu = .error .ERROR := by
  simp [discover_capabilities, h1, h2, h3, h4, collect_probe, opt_caps]

/-- Characterization of the discovery error outcome: ERROR exactly when
all four probes are not-present or some probe errored internally. -/
lemma discover_error_iff (hw : HW) (cpu : Cpuinfo) (e : Retval) :
    discover_capabilities hw cpu = .error e ↔
      (e = .ERROR ∧
       ((discover_monitoring hw cpu = .error .RESOURCE ∧
         discover_alloc_l3 hw cpu = .error .RESOURCE ∧
         discover_alloc_l2 hw cpu = .error .RESOURCE ∧
         discover_alloc_mba hw = .error .RESOURCE) ∨
        (probe_internal_error (discover_monitoring hw cpu) ∨
         probe_internal_error (discover_alloc_l3 hw cpu) ∨
         probe_internal_error (discover_alloc_l2 hw cpu) ∨
         probe_internal_error (discover_alloc_mba hw)))) := by
  rcases except_tri (discover_monitoring hw cpu) with ⟨m1, h1⟩ | h1 | ⟨rv1, h1, n1⟩ <;>
  rcases except_tri (discover_alloc_l3 hw cpu) with ⟨c1, h2⟩ | h2 | ⟨rv2, h2, n2⟩ <;>
  rcases except_tri (discover_alloc_l2 hw cpu) with ⟨c2, h3⟩ | h3 | ⟨rv3, h3, n3⟩ <;>
  rcases except_tri (discover_alloc_mba hw) with ⟨c3, h4⟩ | h4 | ⟨rv4, h4, n4⟩ <;>
  (try simp_all [discover_capabilities, collect_probe, collect_probe_err,
    probe_internal_error, opt_caps]) <;>
  (try exact eq_comm)

/-- Without internal errors and with at least one probe present,
discovery succeeds with exactly the present records. -/
lemma discover_ok_caps (hw : HW) (cpu : Cpuinfo)
    (hb1 : ¬ probe_internal_error (discover_monitoring hw cpu))
    (hb2 : ¬ probe_internal_error (discover_alloc_l3 hw cpu))
    (hb3 : ¬ probe_internal_error (discover_alloc_l2 hw cpu))
    (hb4 : ¬ probe_internal_error (discover_alloc_mba hw))
    (hnr : ¬(discover_monitoring hw cpu = .error .RESOURCE ∧
             discover_alloc_l3 hw cpu = .error .RESOURCE ∧
             discover_alloc_l2 hw cpu = .error .RESOURCE ∧
             discover_alloc_mba hw = .error .RESOURCE)) :
    discover_capabilities hw cpu = .ok ⟨PQOS_VERSION, probe_caps hw cpu⟩ := by
  rcases except_tri (discover_monitoring hw cpu) with ⟨m1, h1⟩ | h1 | ⟨rv1, h1, n1⟩ <;>
  rcases except_tri (discover_alloc_l3 hw cpu) with ⟨c1, h2⟩ | h2 | ⟨rv2, h2, n2⟩ <;>
  rcases except_tri (discover_alloc_l2 hw cpu) with ⟨c2, h3⟩ | h3 | ⟨rv3, h3, n3⟩ <;>
  rcases except_tri (discover_alloc_mba hw) with ⟨c3, h4⟩ | h4 | ⟨rv4, h4, n4⟩ <;>
  simp_all [discover_capabilities, collect_probe, probe_internal_error,
    probe_caps, opt_caps]

/-- C2: a "not present" (RESOURCE) outcome of a single probe does not
abort discovery and merely omits that record; discovery returns the
fatal ERROR exactly when all four probes report not-present (zero
records) or some probe reports an internal inconsistency; and in the
all-absent case `pqos_init` fails with ERROR and leaves the global
state uninitialized. -/
theorem claim_C2_probe_aggregation :
    (∀ (hw : HW) (cpu : Cpuinfo) (e : Retval),
      discover_capabilities hw cpu = .error e ↔
        (e = .ERROR ∧
         ((discover_monitoring hw cpu = .error .RESOURCE ∧
           discover_alloc_l3 hw cpu = .error .RESOURCE ∧
           discover_alloc_l2 hw cpu = .error .RESOURCE ∧
           discover_alloc_mba hw = .error .RESOURCE) ∨
          (probe_internal_error (discover_monitoring hw cpu) ∨
           probe_internal_error (discover_alloc_l3 hw cpu) ∨
           probe_internal_error (discover_alloc_l2 hw cpu) ∨
           probe_internal_error (discover_alloc_mba hw))))) ∧
    (∀ (hw : HW) (cpu : Cpuinfo),
      ¬ probe_internal_error (discover_monitoring hw cpu) →
      ¬ probe_internal_error (discover_alloc_l3 hw cpu) →
      ¬ probe_internal_error (discover_alloc_l2 hw cpu) →
      ¬ probe_internal_error (discover_alloc_mba hw) →
      ¬(discover_monitoring hw cpu = .error .RESOURCE ∧
        discover_alloc_l3 hw cpu = .error .RESOURCE ∧
        discover_alloc_l2 hw cpu = .error .RESOURCE ∧
        discover_alloc_mba hw = .error .RESOURCE) →
      discover_capabilities hw cpu = .ok ⟨PQOS_VERSION, probe_caps hw cpu⟩) ∧
    (∀ (hw : HW) (cfg : Config) (st : LibState) (cpu : Cpuinfo),
      st.m_apilock = none → st.m_init_done = false →
      env_iface_ok hw.env cfg.interface = true →
      hw.openLock ≠ none → hw.mutexInitOk = true → hw.logInitOk = true →
      hw.cpuinfo = some cpu → hw.machineInitOk = true →
      discover_monitoring hw cpu = .error .RESOURCE →
      discover_alloc_l3 hw cpu = .error .RESOURCE →
      discover_alloc_l2 hw cpu = .error .RESOURCE →
      discover_alloc_mba hw = .error .RESOURCE →
      ((pqos_init hw cfg st).1 = .ERROR ∧
       (pqos_init hw cfg st).2.m_init_done = false ∧
       (pqos_init hw cfg st).2.m_cap = none ∧
       (pqos_init hw cfg st).2.m_cpu = none ∧
       (pqos_init hw cfg st).2.m_apilock = none)) := by
  refine ⟨discover_error_iff, discover_ok_caps, ?_⟩
  intro hw cfg st cpu hlk hid henv hopen hmx hlog hcpu hmc p1 p2 p3 p4
  obtain ⟨fd, hfd⟩ := Option.ne_none_iff_exists'.mp hopen
  have hdisc := discover_all_resource hw cpu p1 p2 p3 p4
  unfold pqos_init
  simp only [henv, Bool.not_true, hlk, hfd, hmx, _pqos_check_init, hid, hlog,
    hcpu, hmc, hdisc, init_unwind]
  simp [hid]

/-- Fixture environment on which every resource probe reports
not-present. -/
def hwEmpty : HW :=
  { hw_stub (fun _ _ => ⟨0, 0, 0, 0⟩) (fun _ _ => none) with cpuinfo := some cpuFix }

/-- Witness for C2 at the all-absent and monitoring-only fixtures. -/
theorem claim_C2_witness :
    discover_capabilities hwEmpty cpuFix = .error .ERROR ∧
    discover_capabilities hwGood cpuFix =
      .ok ⟨PQOS_VERSION, probe_caps hwGood cpuFix⟩ ∧
    ((pqos_init hwEmpty cfgMsr st0).1 = .ERROR ∧
     (pqos_init hwEmpty cfgMsr st0).2.m_init_done = false ∧
     (pqos_init hwEmpty cfgMsr st0).2.m_cap = none ∧
     (pqos_init hwEmpty cfgMsr st0).2.m_cpu = none ∧
     (pqos_init hwEmpty cfgMsr st0).2.m_apilock = none) := by
  refine ⟨?_, ?_, ?_⟩
  · exact (claim_C2_probe_aggregation.1 hwEmpty cpuFix .ERROR).mpr
      ⟨rfl, Or.inl ⟨by decide, by decide, by decide, by decide⟩⟩
  · refine claim_C2_probe_aggregation.2.1 hwGood cpuFix ?_ ?_ ?_ ?_ ?_
    · intro hbad
      obtain ⟨rv, hrv, hne⟩ := hbad
      rw [show discover_monitoring hwGood cpuFix =
            Except.ok ⟨6, 24576, [⟨.l3_occup, 10, 1⟩], false⟩ from by decide] at hrv
      exact Except.noConfusion hrv
    · intro hbad
      obtain ⟨rv, hrv, hne⟩ := hbad
      rw [show discover_alloc_l3 hwGood cpuFix = Except.error Retval.RESOURCE
            from by decide] at hrv
      exact hne (Except.error.inj hrv).symm
    · intro hbad
      obtain ⟨rv, hrv, hne⟩ := hbad
      rw [show discover_alloc_l2 hwGood cpuFix = Except.error Retval.RESOURCE
            from by decide] at hrv
      exact hne (Except.error.inj hrv).symm
    · intro hbad
      obtain ⟨rv, hrv, hne⟩ := hbad
      rw [show discover_alloc_mba hwGood = Except.error Retval.RESOURCE
            from by decide] at hrv
      exact hne (Except.error.inj hrv).symm
    · intro hall
      exact absurd hall.1 (by decide)
  · exact claim_C2_probe_aggregation.2.2 hwEmpty cfgMsr st0 cpuFix rfl rfl rfl
      (by decide) rfl rfl rfl rfl (by decide) (by decide) (by decide) (by decide)

/-- Filling against a capacity equal to the count of true slots fills
the table exactly, never trips the capacity guard, and includes the
remote-bandwidth event exactly when its slot condition holds. -/
lemma mon_fill6_spec (P1 P2 P3 P4 P5 P6 : Prop)
    [Decidable P1] [Decidable P2] [Decidable P3] [Decidable P4]
    [Decidable P5] [Decidable P6]
    (cap mr0 sz a b : Nat)
    (hcap : cap = (if P1 then 1 else 0) + (if P2 then 1 else 0) +
      (if P3 then 1 else 0) + (if P4 then 1 else 0) +
      (if P5 then 1 else 0) + (if P6 then 1 else 0)) :
    (mon_fill6 P1 P2 P3 P4 P5 P6 cap mr0 sz a b).events.length = cap ∧
    (mon_fill6 P1 P2 P3 P4 P5 P6 cap mr0 sz a b).warned = false ∧
    ((∃ e ∈ (mon_fill6 P1 P2 P3 P4 P5 P6 cap mr0 sz a b).events,
        e.type = .rmem_bw) ↔ P4) := by
  subst hcap
  by_cases h1 : P1 <;> by_cases h2 : P2 <;> by_cases h3 : P3 <;>
  by_cases h4 : P4 <;> by_cases h5 : P5 <;> by_cases h6 : P6 <;>
  simp [mon_fill6, add_monitoring_event, h1, h2, h3, h4, h5, h6]

/-- Shape of every successful monitoring discovery: the event table is
filled to exactly the pre-counted capacity, the capacity guard never
fires, and the remote-bandwidth event is present exactly when both the
total- and local-bandwidth bits are. -/
lemma discover_monitoring_ok_spec (hw : HW) (cpu : Cpuinfo) (mon : CapMon)
    (h : discover_monitoring hw cpu = .ok mon) :
    mon.events.length = mon_event_count (hw.cpuid 0xf 1) (hw.cpuid 0xa 0x0) ∧
    mon.warned = false ∧
    ((∃ e ∈ mon.events, e.type = .rmem_bw) ↔
      ((hw.cpuid 0xf 1).edx &&& 2 ≠ 0 ∧ (hw.cpuid 0xf 1).edx &&& 4 ≠ 0)) := by
  unfold discover_monitoring at h
  by_cases g1 : (hw.cpuid 0x7 0x0).ebx &&& (1 <<< 12) = 0
  · rw [if_pos g1] at h
    exact Except.noConfusion h
  rw [if_neg g1] at h
  by_cases g2 : (hw.cpuid 0xf 0x0).edx &&& 2 = 0
  · rw [if_pos g2] at h
    exact Except.noConfusion h
  rw [if_neg g2] at h
  rcases hci : get_cache_info cpu.l3 with e | ⟨w, sz⟩ <;> rw [hci] at h <;>
    dsimp only at h
  · exact Except.noConfusion h
  by_cases hz : rmt_event_count (hw.cpuid 0xf 1) = 0
  · rw [if_pos hz] at h
    exact Except.noConfusion h
  rw [if_neg hz] at h
  have hmn := (Except.ok.inj h).symm
  subst hmn
  exact mon_fill6_spec _ _ _ _ _ _ _ _ _ _ _ rfl


/-- C7: in every successfully produced monitoring event sequence, the
remote-bandwidth event appears exactly when both the total-bandwidth
bit and the local-bandwidth bit of the capability bitmask are set; it
is never added when only one of them is present. -/
theorem claim_C7_rmem_synthesis :
    ∀ (hw : HW) (cpu : Cpuinfo) (mon : CapMon),
      discover_monitoring hw cpu = .ok mon →
      ((∃ e ∈ mon.events, e.type = .rmem_bw) ↔
        ((hw.cpuid 0xf 1).edx &&& 2 ≠ 0 ∧ (hw.cpuid 0xf 1).edx &&& 4 ≠ 0)) :=
  fun hw cpu mon h => (discover_monitoring_ok_spec hw cpu mon h).2.2

/-- C9: the event table is sized to the exact pre-counted number of
present event kinds and filled to exactly that capacity; an attempt to
add an event at or beyond capacity is rejected and surfaced via the
warning flag rather than silently truncated, and an in-capacity add
never exceeds the capacity. -/
theorem claim_C9_event_capacity :
    (∀ (mon : CapMon) (t : MonEventType) (mr sf maxn : Nat),
      maxn ≤ mon.events.length →
      add_monitoring_event mon t mr sf maxn = { mon with warned := true }) ∧
    (∀ (mon : CapMon) (t : MonEventType) (mr sf maxn : Nat),
      mon.events.length ≤ maxn →
      (add_monitoring_event mon t mr sf maxn).events.length ≤ maxn) ∧
    (∀ (hw : HW) (cpu : Cpuinfo) (mon : CapMon),
      discover_monitoring hw cpu = .ok mon →
      mon.events.length = mon_event_count (hw.cpuid 0xf 1) (hw.cpuid 0xa 0x0) ∧
      mon.warned = false) := by
  refine ⟨?_, ?_, ?_⟩
  · intro mon t mr sf maxn hle
    simp [add_monitoring_event, hle]
  · intro mon t mr sf maxn hle
    by_cases hc : maxn ≤ mon.events.length
    · simpa [add_monitoring_event, hc] using hle
    · simp [add_monitoring_event, hc]
      omega
  · intro hw cpu mon h
    exact ⟨(discover_monitoring_ok_spec hw cpu mon h).1,
           (discover_monitoring_ok_spec hw cpu mon h).2.1⟩

/-- Fixture with all four RMT bits and both perf events present. -/
def hwMonFull : HW := hw_stub
  (fun leaf sub =>
    if leaf == 0x7 then ⟨0, 4096, 0, 0⟩
    else if leaf == 0xf && sub == 0 then ⟨0, 5, 0, 2⟩
    else if leaf == 0xf && sub == 1 then ⟨0, 2, 9, 7⟩
    else if leaf == 0xa then ⟨512, 0, 0, 2⟩
    else ⟨0, 0, 0, 0⟩)
  (fun _ _ => none)

/-- Monitoring capability produced by the full fixture. -/
def monFull : CapMon :=
  ⟨6, 24576,
   [⟨.l3_occup, 10, 2⟩, ⟨.tmem_bw, 10, 2⟩, ⟨.lmem_bw, 10, 2⟩,
    ⟨.rmem_bw, 10, 2⟩, ⟨.ipc_ev, 0, 0⟩, ⟨.llc_miss, 0, 0⟩], false⟩

/-- Witness for C7 at the full monitoring fixture. -/
theorem claim_C7_witness :
    (∃ e ∈ monFull.events, e.type = .rmem_bw) ↔
      ((hwMonFull.cpuid 0xf 1).edx &&& 2 ≠ 0 ∧
       (hwMonFull.cpuid 0xf 1).edx &&& 4 ≠ 0) :=
  claim_C7_rmem_synthesis hwMonFull cpuFix monFull (by decide)

/-- Witness for C9 at the full monitoring fixture. -/
theorem claim_C9_witness :
    add_monitoring_event monFull .l3_occup 0 0 6 = { monFull with warned := true } ∧
    (add_monitoring_event monFull .l3_occup 0 0 6).events.length ≤ 6 ∧
    (monFull.events.length =
       mon_event_count (hwMonFull.cpuid 0xf 1) (hwMonFull.cpuid 0xa 0x0) ∧
     monFull.warned = false) :=
  ⟨claim_C9_event_capacity.1 monFull .l3_occup 0 0 6 (by decide),
   claim_C9_event_capacity.2.1 monFull .l3_occup 0 0 6 (by decide),
   claim_C9_event_capacity.2.2 hwMonFull cpuFix monFull (by decide)⟩

/-- Class count of an L3 probe outcome, when successful. -/
def l3_classes_of (r : Except Retval CapL3) : Option Nat :=
  match r with
  | .ok c => some c.num_classes
  | .error _ => none

/-- The sequential register probe stops exactly at the first failing
class register. -/
lemma probe_from_stops (hw : HW) (lcore : Nat) :
    ∀ (fuel k i : Nat), k ≤ fuel →
      (∀ j, j < k → (hw.msr lcore (0xC90 + (i + j))).isSome) →
      hw.msr lcore (0xC90 + (i + k)) = none →
      probe_from hw lcore i fuel = i + k := by
  intro fuel
  induction fuel with
  | zero =>
    intro k i hk hsucc hfail
    have hk0 : k = 0 := Nat.le_zero.mp hk
    subst hk0
    simp [probe_from]
  | succ fuel ih =>
    intro k i hk hsucc hfail
    cases k with
    | zero =>
      have hnone : hw.msr lcore (0xC90 + i) = none := by simpa using hfail
      simp [probe_from, hnone]
    | succ k =>
      have h0 : (hw.msr lcore (0xC90 + i)).isSome := by
        simpa using hsucc 0 (Nat.succ_pos k)
      obtain ⟨v, hv⟩ := Option.isSome_iff_exists.mp h0
      have ihres := ih k (i + 1) (Nat.le_of_succ_le_succ hk)
        (fun j hj => by
          have e : 0xC90 + (i + 1 + j) = 0xC90 + (i + (j + 1)) := by omega
          rw [e]
          exact hsucc (j + 1) (by omega))
        (by
          have e : 0xC90 + (i + 1 + k) = 0xC90 + (i + (k + 1)) := by omega
          rw [e]
          exact hfail)
      simp only [probe_from, hv]
      rw [ihres]
      omega

/-- The probe over the 128 COS registers starting at class 0. -/
lemma probe_from_stops0 (hw : HW) (lcore k : Nat) (hk : k ≤ 128)
    (hsucc : ∀ j, j < k → (hw.msr lcore (0xC90 + j)).isSome)
    (hfail : hw.msr lcore (0xC90 + k) = none) :
    probe_from hw lcore 0 128 = k := by
  have h := probe_from_stops hw lcore 128 k 0 hk
    (fun j hj => by simpa using hsucc j hj)
    (by simpa using hfail)
  simpa using h

/-- C8: when the direct feature-discovery bit for L3 CAT is absent, the
probe falls back first to the fixed brand-string allow-list (a match
yields the hardcoded class count 4) and only when that fails to
sequential per-class register probing from class 0: num_classes is then
the index of the first failing class register, and failure already at
class 0 rejects the resource with RESOURCE. -/
theorem claim_C8_l3_fallback :
    ∀ (hw : HW) (cpu : Cpuinfo),
      (hw.cpuid 0x7 0x0).ebx &&& (1 <<< 15) = 0 →
      cpu.l3.detected = true →
      ((0x80000004 ≤ (hw.cpuid 0x80000000 0).eax →
        brand_match hw = true →
        l3_classes_of (discover_alloc_l3 hw cpu) = some 4) ∧
       (((hw.cpuid 0x80000000 0).eax < 0x80000004 ∨ brand_match hw = false) →
        ∀ k, k < 128 →
        (∀ j, j < k → (hw.msr (cpu.cores.headD 0) (0xC90 + j)).isSome) →
        hw.msr (cpu.cores.headD 0) (0xC90 + k) = none →
        ((k = 0 → discover_alloc_l3 hw cpu = .error .RESOURCE) ∧
         (0 < k → l3_classes_of (discover_alloc_l3 hw cpu) = some k)))) := by
  intro hw cpu hbit hdet
  have hbit' : (hw.cpuid 0x7 0x0).ebx &&& 32768 = 0 := by simpa using hbit
  constructor
  · intro hge hbm
    have hnlt : ¬((hw.cpuid 0x80000000 0).eax < 0x80000004) := Nat.not_lt.mpr hge
    simp [discover_alloc_l3, discover_alloc_l3_brandstr, hbit', hnlt, hbm,
      get_cache_info, hdet, cap_l3_zero]
    split <;> rfl
  · intro hbfail k hk hsucc hfail
    have hp : probe_from hw (cpu.cores.headD 0) 0 128 = k :=
      probe_from_stops0 hw (cpu.cores.headD 0) k (Nat.le_of_lt hk) hsucc hfail
    have hp' : probe_from hw (cpu.cores.head?.getD 0) 0 128 = k := by
      simpa using hp
    have hbr : ∃ rv, discover_alloc_l3_brandstr hw cap_l3_zero = .error rv := by
      rcases hbfail with hlt | hbm
      · exact ⟨.ERROR, by simp [discover_alloc_l3_brandstr, hlt]⟩
      · by_cases hlt : (hw.cpuid 0x80000000 0).eax < 0x80000004
        · exact ⟨.ERROR, by simp [discover_alloc_l3_brandstr, hlt]⟩
        · exact ⟨.RESOURCE, by simp [discover_alloc_l3_brandstr, hlt, hbm]⟩
    obtain ⟨rv, hrv⟩ := hbr
    simp only [cap_l3_zero] at hrv
    constructor
    · rintro rfl
      simp [discover_alloc_l3, hbit', hrv, discover_alloc_l3_probe, hp',
        cap_l3_zero]
    · intro hkpos
      have hk0 : k ≠ 0 := Nat.pos_iff_ne_zero.mp hkpos
      simp [discover_alloc_l3, hbit', hrv, discover_alloc_l3_probe, hp', hk0,
        get_cache_info, hdet, cap_l3_zero]
      split <;> rfl

/-- Fixture whose CPU brand string is exactly "E5-2658 v3", a member of
the allow-list. -/
def hwBrand : HW := hw_stub
  (fun leaf _ =>
    if leaf == 0x80000000 then ⟨0x80000004, 0, 0, 0⟩
    else if leaf == 0x80000002 then ⟨0x322D3545, 0x20383536, 0x3376, 0⟩
    else ⟨0, 0, 0, 0⟩)
  (fun _ _ => none)

/-- Fixture with no feature bit and no brand match, where COS registers
0xC90..0xC94 read fine and register 0xC95 fails. -/
def hwProbe5 : HW := hw_stub (fun _ _ => ⟨0, 0, 0, 0⟩)
  (fun _ r => if r < 0xC95 then some 0 else none)

/-- Fixture where already the class-0 register read fails. -/
def hwProbe0 : HW := hw_stub (fun _ _ => ⟨0, 0, 0, 0⟩) (fun _ _ => none)

/-- Witness for C8 at the brand-string and probing fixtures. -/
theorem claim_C8_witness :
    l3_classes_of (discover_alloc_l3 hwBrand cpuFix) = some 4 ∧
    l3_classes_of (discover_alloc_l3 hwProbe5 cpuFix) = some 5 ∧
    discover_alloc_l3 hwProbe0 cpuFix = .error .RESOURCE :=
  ⟨(claim_C8_l3_fallback hwBrand cpuFix (by decide) rfl).1 (by decide) (by decide),
   ((claim_C8_l3_fallback hwProbe5 cpuFix (by decide) rfl).2 (Or.inl (by decide)) 5
      (by decide) (by decide) (by decide)).2 (by decide),
   ((claim_C8_l3_fallback hwProbe0 cpuFix (by decide) rfl).2 (Or.inl (by decide)) 0
      (by decide) (by decide) (by decide)).1 rfl⟩
